import Mathlib

/-!
Verification of the promotion lifecycle and promo-code codec of
`src/backend/server.py` (foodie backend).

Python strings are embedded as `List Char` (`Str`).  Mongo collections are
embedded as insertion-ordered lists; `find_one` is `List.find?` (first match)
and `update_one` on the record found by `_id` is `updateFirst` (update of the
first matching record, identical because `_id`s of distinct records differ).
`datetime.utcnow()` is threaded in as an explicit `now : Int` timestamp, and
ISO-8601 expiry strings are embedded as already-parsed `Option Int` timestamps.
-/

/-- Python strings are modelled as lists of characters. -/
abbrev Str := List Char

/-- Python `s.split("|")` on the embedded strings: splits on every occurrence
of the pipe character, keeping empty segments, and returns `[[]]` on the empty
string, exactly as `"".split("|") == [""]` in Python. -/
def splitOnPipe : Str → List Str
  | [] => [[]]
  | c :: cs =>
    match splitOnPipe cs with
    | [] => [[c]]
    | t :: ts => if c = '|' then [] :: t :: ts else (c :: t) :: ts

/-- One byte of a string flipped: `OneFlip a b` holds when `b` is `a` with
exactly one position replaced by a different character. -/
inductive OneFlip : Str → Str → Prop
  | head (c c2 : Char) (rest : Str) : c ≠ c2 → OneFlip (c :: rest) (c2 :: rest)
  | tail (c : Char) (a b : Str) : OneFlip a b → OneFlip (c :: a) (c :: b)

/-- Modelled from the spec: the `cryptography.fernet.Fernet` authenticated
symmetric cipher used by the source is library code not under `src/`.  The
spec describes it as an authenticated cipher: decryption inverts encryption
(`dec_enc`); any string that is not a genuine ciphertext fails integrity
verification (`tamper`); and, per the spec's "any bit-flip must be detectable
on decode", flipping any byte of a genuine ciphertext yields a string that
fails decryption (`flip_detect`). -/
structure Fernet where
  enc : Str → Str
  dec : Str → Option Str
  dec_enc : ∀ s, dec (enc s) = some s
  tamper : ∀ c, (∀ m, c ≠ enc m) → dec c = none
  flip_detect : ∀ m c, OneFlip (enc m) c → dec c = none

/-- Modelled from the spec: `base64.urlsafe_b64encode`/`urlsafe_b64decode`
are library code not under `src/`.  The spec describes a reversible URL-safe
textual encoding whose decoder fails on malformed input, so the decoder is
`Option`-valued and inverts the encoder (`dec_enc`); and, as a positional
byte-for-byte textual code, a single flipped character of a well-formed
encoding either malforms it or changes the decoded payload at a single
position (`flip_dec`) — the link that carries the spec's tamper-detection
property from the encoded string down to the ciphertext. -/
structure UrlSafeB64 where
  enc : Str → Str
  dec : Str → Option Str
  dec_enc : ∀ s, dec (enc s) = some s
  flip_dec : ∀ w t, OneFlip (enc w) t →
    dec t = none ∨ ∃ w2, dec t = some w2 ∧ OneFlip w w2

/-- Encryption side of the concrete cipher instance below: tag the plaintext
and duplicate it, so that genuine ciphertexts are pairwise at Hamming
distance at least 2 and no single byte flip maps one onto another. -/
def fernetDemoEnc (s : Str) : Str := '#' :: (s ++ s)

/-- Decryption side of the concrete cipher instance below: accept exactly the
strings of the form tag :: payload ++ payload and return the payload. -/
def fernetDemoDec : Str → Option Str
  | [] => none
  | c0 :: rest =>
    if c0 = '#' then
      if rest.take (rest.length / 2) = rest.drop (rest.length / 2) ∧
          rest.length % 2 = 0
      then some (rest.take (rest.length / 2))
      else none
    else none

/-- A concrete instance of the cipher model, used to evaluate the development
on closed inputs: the tag-and-duplicate code, whose decoder rejects every
untagged, unduplicated or singly-flipped string. -/
def fernetDemo : Fernet where
  enc := fernetDemoEnc
  dec := fernetDemoDec
  dec_enc := fun s => by
    have h2 : (s.length + s.length) / 2 = s.length := by omega
    have hm : (s.length + s.length) % 2 = 0 := by omega
    simp [fernetDemoEnc, fernetDemoDec, List.length_append, h2, hm,
      List.take_left, List.drop_left]
  tamper := by
    intro c h
    match c with
    | [] => rfl
    | c0 :: rest =>
      by_cases hc : c0 = '#'
      · subst hc
        by_cases hcond : rest.take (rest.length / 2) = rest.drop (rest.length / 2) ∧
            rest.length % 2 = 0
        · exfalso
          apply h (rest.take (rest.length / 2))
          show '#' :: rest = fernetDemoEnc (rest.take (rest.length / 2))
          unfold fernetDemoEnc
          rw [show rest.take (rest.length / 2) ++ rest.take (rest.length / 2) =
                rest.take (rest.length / 2) ++ rest.drop (rest.length / 2) by
              rw [hcond.1]]
          rw [List.take_append_drop]
        · simp [fernetDemoDec, hcond]
      · simp [fernetDemoDec, hc]
  flip_detect := by
    have hlen : ∀ a b : Str, OneFlip a b → a.length = b.length := by
      intro a b h
      induction h with
      | head c c2 rest hcc => rfl
      | tail c a b hab ih => simp [ih]
    have hne2 : ∀ a b : Str, OneFlip a b → a ≠ b := by
      intro a b h
      induction h with
      | head c c2 rest hcc =>
        intro he
        exact hcc (List.cons.inj he).1
      | tail c a b hab ih =>
        intro he
        exact ih (List.cons.inj he).2
    have hsplit : ∀ u v w : Str, OneFlip (u ++ v) w →
        (∃ u2, OneFlip u u2 ∧ w = u2 ++ v) ∨ (∃ v2, OneFlip v v2 ∧ w = u ++ v2) := by
      intro u
      induction u with
      | nil =>
        intro v w h
        exact Or.inr ⟨w, by simpa using h, by simp⟩
      | cons c u ih =>
        intro v w h
        cases h with
        | head c c2 rest hcc =>
          exact Or.inl ⟨c2 :: u, OneFlip.head c c2 u hcc, by simp⟩
        | tail c a b hab =>
          rcases ih v b hab with ⟨u2, hu, rfl⟩ | ⟨v2, hv, rfl⟩
          · exact Or.inl ⟨c :: u2, OneFlip.tail c _ _ hu, by simp⟩
          · exact Or.inr ⟨v2, hv, by simp⟩
    intro m c hflip
    have hflip2 : OneFlip ('#' :: (m ++ m)) c := hflip
    cases hflip2 with
    | head c0 c2 rest hcc =>
      simp only [fernetDemoDec]
      rw [if_neg (fun hx => hcc hx.symm)]
    | tail c0 b0 b hab =>
      simp only [fernetDemoDec, if_true]
      rcases hsplit m m b hab with ⟨m2, hm2, rfl⟩ | ⟨m2, hm2, rfl⟩
      · have hk : (m2 ++ m).length / 2 = m2.length := by
          have := hlen m m2 hm2
          simp only [List.length_append]
          omega
        have htake : (m2 ++ m).take ((m2 ++ m).length / 2) = m2 := by
          rw [hk]
          exact List.take_left m2 m
        have hdrop : (m2 ++ m).drop ((m2 ++ m).length / 2) = m := by
          rw [hk]
          exact List.drop_left m2 m
        have hcontra : ¬((m2 ++ m).take ((m2 ++ m).length / 2) =
            (m2 ++ m).drop ((m2 ++ m).length / 2) ∧ (m2 ++ m).length % 2 = 0) := by
          rw [htake, hdrop]
          intro hcond
          exact hne2 m m2 hm2 hcond.1.symm
        rw [if_neg hcontra]
      · have hk : (m ++ m2).length / 2 = m.length := by
          have := hlen m m2 hm2
          simp only [List.length_append]
          omega
        have htake : (m ++ m2).take ((m ++ m2).length / 2) = m := by
          rw [hk]
          exact List.take_left m m2
        have hdrop : (m ++ m2).drop ((m ++ m2).length / 2) = m2 := by
          rw [hk]
          exact List.drop_left m m2
        have hcontra : ¬((m ++ m2).take ((m ++ m2).length / 2) =
            (m ++ m2).drop ((m ++ m2).length / 2) ∧ (m ++ m2).length % 2 = 0) := by
          rw [htake, hdrop]
          intro hcond
          exact hne2 m m2 hm2 hcond.1
        rw [if_neg hcontra]

/-- A concrete instance of the textual-encoding model, used to evaluate the
development on closed inputs: the identity encoding, under which a flip of
the text is the same flip of the payload. -/
def b64Demo : UrlSafeB64 where
  enc := fun s => s
  dec := fun s => some s
  dec_enc := fun _ => rfl
  flip_dec := fun _ t h => Or.inr ⟨t, rfl, h⟩

/-- The plaintext record built by `encrypt_promo_code` (server.py line 70):
`f"{promo_text}|{promoter_id}|{restaurant_id}|{post_id}|{dish_id}"`. -/
def promoPlaintext (promo_text promoter_id restaurant_id post_id dish_id : Str) : Str :=
  promo_text ++ '|' :: promoter_id ++ '|' :: restaurant_id ++ '|' :: post_id ++ '|' :: dish_id

/-- `encrypt_promo_code` (server.py lines 69-72): join the five fields with
`|`, encrypt with Fernet, and base64-urlsafe-encode the ciphertext.  In the
source `dish_id` has default value `""`; callers here pass it explicitly. -/
def encrypt_promo_code (F : Fernet) (B : UrlSafeB64)
    (promo_text promoter_id restaurant_id post_id dish_id : Str) : Str :=
  B.enc (F.enc (promoPlaintext promo_text promoter_id restaurant_id post_id dish_id))

/-- The record returned by `decrypt_promo_code` on success. -/
structure DecodedPromo where
  promo_text : Str
  promoter_id : Str
  restaurant_id : Str
  post_id : Str
  dish_id : Str
deriving DecidableEq

/-- `decrypt_promo_code` (server.py lines 74-87): base64-decode, Fernet-decrypt,
split on `|`, and read fields 0-3 (an `IndexError` when fewer than 4 parts is
caught by the blanket `except` and surfaces as the 400 "Invalid promo code"
failure, here `none`); field 4 defaults to the empty string when absent. -/
def decrypt_promo_code (F : Fernet) (B : UrlSafeB64) (encrypted_code : Str) :
    Option DecodedPromo :=
  match B.dec encrypted_code with
  | none => none
  | some decoded =>
    match F.dec decoded with
    | none => none
    | some decrypted =>
      match splitOnPipe decrypted with
      | p0 :: p1 :: p2 :: p3 :: rest =>
        some { promo_text := p0, promoter_id := p1, restaurant_id := p2,
               post_id := p3, dish_id := rest.headD [] }
      | _ => none

/-- The `promotion_status` string field on a post, one constructor per string
literal used by the source: "N/A", "Pending", "Approved", "Rejected". -/
inductive PromotionStatus
  | na | pending | approved | rejected
deriving DecidableEq

/-- The promotion-relevant fields of a document in the `posts` collection. -/
structure Post where
  id : Str
  user_id : Str
  restaurant_tagged_id : Option Str
  is_promotion_request : Bool
  promotion_status : PromotionStatus
  promo_code_id : Option Str
  updated_at : Int
deriving DecidableEq

/-- The `restaurant_confirmation_status` string on a redemption; the source
only ever writes the literal "Confirmed". -/
inductive ConfirmationStatus
  | confirmed
deriving DecidableEq

/-- A redemption entry appended to a promo code (server.py lines 563-567). -/
structure Redemption where
  redeemer_user_id : Str
  redeemed_at : Int
  restaurant_confirmation_status : ConfirmationStatus
deriving DecidableEq

/-- A document of the `promocodes` collection (server.py lines 501-510); the
ISO expiry string of the source is embedded as a parsed timestamp. -/
structure PromoCode where
  id : Str
  code_encrypted : Str
  promoter_foodie_id : Str
  restaurant_id : Str
  post_id : Str
  offer_description : Str
  expiry_date : Option Int
  redemptions : List Redemption
  created_at : Int
deriving DecidableEq

/-- The `type` string of a loyalty transaction; the source only writes
"Earned" ("Spent" appears nowhere, there is no spend path). -/
inductive TransactionType
  | earned | spent
deriving DecidableEq

/-- A transaction appended to a loyalty document (server.py lines 586-591). -/
structure LoyaltyTransaction where
  amount : Int
  type : TransactionType
  source_promo_code_id : Str
  date : Int
deriving DecidableEq

/-- A document of the `loyalty_points` collection, keyed by the
(restaurant_id, foodie_id) pair. -/
structure LoyaltyRecord where
  restaurant_id : Str
  foodie_id : Str
  points : Int
  transactions : List LoyaltyTransaction
  last_updated : Int
deriving DecidableEq

/-- The three Mongo collections the promotion endpoints touch, each as an
insertion-ordered list of documents. -/
structure Store where
  posts : List Post
  promocodes : List PromoCode
  loyalty_points : List LoyaltyRecord
deriving DecidableEq

/-- The HTTPException failures raised by the promotion endpoints, named by
the taxonomy of the spec: 403 "Not authorized" is `forbidden`, 404 lookups
are `notFound`, 400 "Invalid promo code" is `invalidCode`, 400 "Invalid
promo code for this restaurant" is `restaurantMismatch`, and 400 "Promo code
expired" is `expired`. -/
inductive ApiErr
  | forbidden | notFound | invalidCode | restaurantMismatch | expired
deriving DecidableEq

deriving instance DecidableEq for Except

/-- Mongo `update_one`: update the first record matching the predicate and
leave everything else unchanged; with no match (`matched_count == 0`) the
collection is unchanged. -/
def updateFirst (p : α → Bool) (f : α → α) : List α → List α
  | [] => []
  | x :: xs => if p x then f x :: xs else x :: updateFirst p f xs

/-- Whether an endpoint result is a success (no HTTPException raised). -/
def exceptOk : Except ApiErr α → Bool
  | .ok _ => true
  | .error _ => false

/-- Request body of the approve endpoint (`PromoApprove` in the source). -/
structure PromoApprove where
  promo_code_plain_text : Str
  offer_description : Str
  expiry_date : Option Int
deriving DecidableEq

/-- Request body of the redeem endpoint (`PromoRedeem` in the source). -/
structure PromoRedeem where
  promo_code_encrypted : Str
  redeemer_user_id : Str
deriving DecidableEq

/-- `approve_promo` (server.py lines 483-525): authorize the actor against
the path `restaurant_id`, look the post up, mint the encrypted code (the
source omits `dish_id`, so its default `""` is passed), insert the new
promo-code document, and mark the post Approved.  The authenticated
`current_user["user_id"]` is the explicit `actor`; the `_id` Mongo would
generate for the insert is threaded in as `newPromoId`. -/
def approve_promo (F : Fernet) (B : UrlSafeB64) (now : Int) (newPromoId : Str)
    (restaurant_id post_id : Str) (promo : PromoApprove) (actor : Str)
    (σ : Store) : Store × Except ApiErr Str :=
  if actor ≠ restaurant_id then (σ, .error .forbidden)
  else
    match σ.posts.find? (fun q => q.id == post_id) with
    | none => (σ, .error .notFound)
    | some post =>
      let encrypted_code :=
        encrypt_promo_code F B promo.promo_code_plain_text post.user_id
          restaurant_id post_id []
      let promoRec : PromoCode :=
        { id := newPromoId, code_encrypted := encrypted_code,
          promoter_foodie_id := post.user_id, restaurant_id := restaurant_id,
          post_id := post_id, offer_description := promo.offer_description,
          expiry_date := promo.expiry_date, redemptions := [],
          created_at := now }
      let posts2 := updateFirst (fun q => q.id == post_id)
        (fun q => { q with promotion_status := .approved,
                           promo_code_id := some newPromoId,
                           updated_at := now }) σ.posts
      ({ σ with promocodes := σ.promocodes ++ [promoRec], posts := posts2 },
       .ok encrypted_code)

/-- `reject_promo` (server.py lines 527-537): authorize the actor against the
path `restaurant_id`, then unconditionally set the post status to Rejected —
with no existence check on the post. -/
def reject_promo (now : Int) (restaurant_id post_id actor : Str) (σ : Store) :
    Store × Except ApiErr Unit :=
  if actor ≠ restaurant_id then (σ, .error .forbidden)
  else
    let posts2 := updateFirst (fun q => q.id == post_id)
      (fun q => { q with promotion_status := .rejected, updated_at := now })
      σ.posts
    ({ σ with posts := posts2 }, .ok ())

/-- Predicate selecting the loyalty document of a (restaurant, foodie) pair —
the `find_one` filter at server.py lines 576-579. -/
def pairP (restaurant_id foodie_id : Str) (l : LoyaltyRecord) : Bool :=
  l.restaurant_id == restaurant_id && l.foodie_id == foodie_id

/-- Expiry test of server.py lines 557-559: a stored expiry date strictly
before the current time; a record without expiry date never matches. -/
def pastExpiry (expiry_date : Option Int) (now : Int) : Bool :=
  match expiry_date with
  | some expiry => now > expiry
  | none => false

/-- The store written by the success path of `redeem_promo` (server.py lines
562-607): a Confirmed redemption appended to the promo document that was
found, then 10 points credited to the (path restaurant, decoded promoter)
loyalty document — updated when present, inserted when absent. -/
def redeemSuccessStore (now : Int) (restaurant_id : Str) (redemption : PromoRedeem)
    (σ : Store) (decrypted : DecodedPromo) (promo : PromoCode) : Store :=
  let redemption_obj : Redemption :=
    { redeemer_user_id := redemption.redeemer_user_id,
      redeemed_at := now, restaurant_confirmation_status := .confirmed }
  let promocodes2 := updateFirst (fun q => q.post_id == decrypted.post_id)
    (fun q => { q with redemptions := q.redemptions ++ [redemption_obj] })
    σ.promocodes
  let σ1 := { σ with promocodes := promocodes2 }
  let promoter_id := decrypted.promoter_id
  let txn : LoyaltyTransaction :=
    { amount := 10, type := .earned, source_promo_code_id := promo.id,
      date := now }
  match σ1.loyalty_points.find? (pairP restaurant_id promoter_id) with
  | some _ =>
    let loyalty2 := updateFirst (pairP restaurant_id promoter_id)
      (fun l => { l with points := l.points + 10,
                         transactions := l.transactions ++ [txn],
                         last_updated := now }) σ1.loyalty_points
    { σ1 with loyalty_points := loyalty2 }
  | none =>
    let newRec : LoyaltyRecord :=
      { restaurant_id := restaurant_id, foodie_id := promoter_id,
        points := 10, transactions := [txn], last_updated := now }
    { σ1 with loyalty_points := σ1.loyalty_points ++ [newRec] }

/-- `redeem_promo` (server.py lines 539-609): authorize the actor against the
path `restaurant_id`, decode the code, check the decoded restaurant against
the path, look the promo document up by the decoded post id, check expiry,
then apply the success writes (`redeemSuccessStore`) and award 10 points.
Both `update_one` calls of the source address the document `find_one`
returned by `_id`; since distinct documents have distinct `_id`s this is the
update of the first matching document. -/
def redeem_promo (F : Fernet) (B : UrlSafeB64) (now : Int) (restaurant_id : Str)
    (redemption : PromoRedeem) (actor : Str) (σ : Store) :
    Store × Except ApiErr Int :=
  if actor ≠ restaurant_id then (σ, .error .forbidden)
  else
    match decrypt_promo_code F B redemption.promo_code_encrypted with
    | none => (σ, .error .invalidCode)
    | some decrypted =>
      if decrypted.restaurant_id ≠ restaurant_id then (σ, .error .restaurantMismatch)
      else
        match σ.promocodes.find? (fun q => q.post_id == decrypted.post_id) with
        | none => (σ, .error .notFound)
        | some promo =>
          if pastExpiry promo.expiry_date now then (σ, .error .expired)
          else (redeemSuccessStore now restaurant_id redemption σ decrypted promo,
                .ok 10)

/-- One call to the redeem endpoint: its wall-clock time and its arguments. -/
structure RedeemCall where
  now : Int
  restaurant_id : Str
  redemption : PromoRedeem
  actor : Str
deriving DecidableEq

/-- The store after one redeem call (the HTTP response is discarded). -/
def applyRedeem (F : Fernet) (B : UrlSafeB64) (c : RedeemCall) (σ : Store) : Store :=
  (redeem_promo F B c.now c.restaurant_id c.redemption c.actor σ).1

/-- The store after a sequence of redeem calls, run left to right. -/
def runRedeems (F : Fernet) (B : UrlSafeB64) : List RedeemCall → Store → Store
  | [], σ => σ
  | c :: cs, σ => runRedeems F B cs (applyRedeem F B c σ)

/-- Every call in the list is addressed to restaurant `R`, carries a code
whose decoded promoter is `Fo`, and succeeds on the store it runs against —
a sequence of successful sequential redemptions crediting the (R, Fo) pair. -/
def creditsOk (F : Fernet) (B : UrlSafeB64) (R Fo : Str) :
    List RedeemCall → Store → Bool
  | [], _ => true
  | c :: cs, σ =>
    c.restaurant_id == R &&
    (match decrypt_promo_code F B c.redemption.promo_code_encrypted with
     | some d => d.promoter_id == Fo
     | none => false) &&
    exceptOk (redeem_promo F B c.now c.restaurant_id c.redemption c.actor σ).2 &&
    creditsOk F B R Fo cs (applyRedeem F B c σ)

/-- Ledger-shape invariant for the accumulation induction: after `k` credits
the (R, Fo) pair either has no loyalty document yet (`k = 0`) or has exactly
one, holding `10 k` points and `k` transactions. -/
def ledgerInv (R Fo : Str) (k : Nat) (σ : Store) : Prop :=
  (k = 0 ∧ σ.loyalty_points.filter (pairP R Fo) = []) ∨
  (∃ rec, σ.loyalty_points.filter (pairP R Fo) = [rec] ∧
    rec.points = 10 * (k : Int) ∧ rec.transactions.length = k)

/-- A concrete post used to evaluate the endpoints: authored by foodie "f",
tagged to restaurant "R", pending promotion request. -/
def demoPost : Post :=
  { id := ['p'], user_id := ['f'], restaurant_tagged_id := some ['R'],
    is_promotion_request := true, promotion_status := .pending,
    promo_code_id := none, updated_at := 0 }

/-- A concrete store holding only `demoPost`. -/
def demoStore : Store := { posts := [demoPost], promocodes := [], loyalty_points := [] }

/-- A concrete approval request body with no expiry date. -/
def demoApprove : PromoApprove :=
  { promo_code_plain_text := ['S'], offer_description := ['o'], expiry_date := none }

/-- The store after restaurant "r" approves `demoPost` through its own path. -/
def demoApproved : Store :=
  (approve_promo fernetDemo b64Demo 1 ['i'] ['r'] ['p'] demoApprove ['r'] demoStore).1

/-- The code minted by that approval. -/
def demoCode : Str := encrypt_promo_code fernetDemo b64Demo ['S'] ['f'] ['r'] ['p'] []

/-- A second approval request body, used for the double-approval scenario. -/
def demoApprove2 : PromoApprove :=
  { promo_code_plain_text := ['T'], offer_description := ['o'], expiry_date := none }

/-- The store after restaurant "R" approves the same post a second time
through its own path, minting a second promo document for the same post. -/
def demoDoubleApproved : Store :=
  (approve_promo fernetDemo b64Demo 4 ['j'] ['R'] ['p'] demoApprove2 ['R'] demoApproved).1

/-- The code minted by the second approval. -/
def demoCode2 : Str := encrypt_promo_code fernetDemo b64Demo ['T'] ['f'] ['R'] ['p'] []

/-- The store after restaurant "r" rejects `demoPost`. -/
def demoRejected : Store := (reject_promo 2 ['r'] ['p'] ['r'] demoStore).1

/-- The demo post as it stands inside `demoRejected`. -/
def demoPostRejected : Post :=
  { demoPost with promotion_status := .rejected, updated_at := 2 }

/-- The decoded form of `demoCode`. -/
def demoDecoded : DecodedPromo :=
  { promo_text := ['S'], promoter_id := ['f'], restaurant_id := ['r'],
    post_id := ['p'], dish_id := [] }

/-- The promo document created by the first demo approval. -/
def demoPromoRec : PromoCode :=
  { id := ['i'], code_encrypted := demoCode, promoter_foodie_id := ['f'],
    restaurant_id := ['r'], post_id := ['p'], offer_description := ['o'],
    expiry_date := none, redemptions := [], created_at := 1 }

/-- A concrete redemption request body presenting `demoCode`. -/
def demoRedeem : PromoRedeem :=
  { promo_code_encrypted := demoCode, redeemer_user_id := ['u'] }

/-- Two successive redeem calls by restaurant "r" presenting `demoCode`. -/
def demoCalls : List RedeemCall :=
  [ { now := 2, restaurant_id := ['r'], redemption := demoRedeem, actor := ['r'] },
    { now := 3, restaurant_id := ['r'], redemption := demoRedeem, actor := ['r'] } ]

theorem splitOnPipe_ne_nil (s : Str) : splitOnPipe s ≠ [] := by
  cases s with
  | nil => simp [splitOnPipe]
  | cons c cs =>
    simp only [splitOnPipe]
    cases h : splitOnPipe cs with
    | nil => simp
    | cons t ts =>
      by_cases hc : c = '|' <;> simp [hc]

theorem splitOnPipe_no_pipe (a : Str) (h : '|' ∉ a) : splitOnPipe a = [a] := by
  induction a with
  | nil => rfl
  | cons c cs ih =>
    have hc : ¬ c = '|' := fun e => h (e ▸ List.mem_cons_self c cs)
    have hcs : '|' ∉ cs := fun m => h (List.mem_cons_of_mem _ m)
    simp [splitOnPipe, ih hcs, hc]

theorem splitOnPipe_append (a rest : Str) (h : '|' ∉ a) :
    splitOnPipe (a ++ '|' :: rest) = a :: splitOnPipe rest := by
  induction a with
  | nil =>
    simp only [List.nil_append, splitOnPipe]
    cases hr : splitOnPipe rest with
    | nil => exact absurd hr (splitOnPipe_ne_nil rest)
    | cons t ts => simp
  | cons c cs ih =>
    have hc : ¬ c = '|' := fun e => h (e ▸ List.mem_cons_self c cs)
    have hcs : '|' ∉ cs := fun m => h (List.mem_cons_of_mem _ m)
    show splitOnPipe (c :: (cs ++ '|' :: rest)) = (c :: cs) :: splitOnPipe rest
    rw [splitOnPipe, ih hcs]
    simp [hc]

/-- Core round-trip lemma for the codec: decoding an encoding of five
pipe-free fields recovers exactly those fields. -/
theorem decrypt_encrypt (F : Fernet) (B : UrlSafeB64)
    (t pr r po d : Str) (ht : '|' ∉ t) (hpr : '|' ∉ pr) (hr : '|' ∉ r)
    (hpo : '|' ∉ po) (hd : '|' ∉ d) :
    decrypt_promo_code F B (encrypt_promo_code F B t pr r po d) =
      some { promo_text := t, promoter_id := pr, restaurant_id := r,
             post_id := po, dish_id := d } := by
  have hsplit : splitOnPipe (promoPlaintext t pr r po d) = [t, pr, r, po, d] := by
    unfold promoPlaintext
    rw [show t ++ '|' :: pr ++ '|' :: r ++ '|' :: po ++ '|' :: d =
          t ++ '|' :: (pr ++ '|' :: (r ++ '|' :: (po ++ '|' :: d))) by simp,
        splitOnPipe_append _ _ ht, splitOnPipe_append _ _ hpr,
        splitOnPipe_append _ _ hr, splitOnPipe_append _ _ hpo,
        splitOnPipe_no_pipe _ hd]
  simp only [decrypt_promo_code, encrypt_promo_code, B.dec_enc, F.dec_enc, hsplit,
    List.headD_cons]

theorem updateFirst_no_match (p : α → Bool) (f : α → α) (l : List α)
    (h : l.find? p = none) : updateFirst p f l = l := by
  induction l with
  | nil => rfl
  | cons x xs ih =>
    rw [List.find?_cons] at h
    by_cases hx : p x
    · simp [hx] at h
    · simp only [hx] at h
      simp [updateFirst, hx, ih h]

theorem find?_updateFirst (p : α → Bool) (f : α → α) (l : List α) (x : α)
    (h : l.find? p = some x) (hp : p (f x) = true) :
    (updateFirst p f l).find? p = some (f x) := by
  induction l with
  | nil => simp at h
  | cons y ys ih =>
    rw [List.find?_cons] at h
    by_cases hy : p y
    · simp only [hy, if_pos] at h
      cases h
      simp [updateFirst, hy, List.find?_cons, hp]
    · simp only [hy] at h
      simp [updateFirst, hy, List.find?_cons, ih h]

theorem filter_updateFirst_singleton (p : α → Bool) (f : α → α) (l : List α) (x : α)
    (h : l.filter p = [x]) (hf : p (f x) = true) :
    (updateFirst p f l).filter p = [f x] := by
  induction l with
  | nil => simp at h
  | cons y ys ih =>
    by_cases hy : p y
    · rw [List.filter_cons_of_pos hy] at h
      have hyx : y = x := by
        have := List.head_eq_of_cons_eq h
        exact this
      have hnil : ys.filter p = [] := List.tail_eq_of_cons_eq h
      subst hyx
      simp [updateFirst, hy, List.filter_cons_of_pos hf, hnil]
    · rw [List.filter_cons_of_neg hy] at h
      simp [updateFirst, hy, List.filter_cons_of_neg hy, ih h]

/-- Full case analysis of the redeem endpoint: either one of the five
validations fails and the call returns the untouched store together with an
error, or every validation passes and the call returns the success store with
10 points. -/
theorem redeem_spec (F : Fernet) (B : UrlSafeB64) (now : Int) (R : Str)
    (red : PromoRedeem) (actor : Str) (σ : Store) :
    ((redeem_promo F B now R red actor σ).1 = σ ∧
      ∃ e, (redeem_promo F B now R red actor σ).2 = .error e) ∨
    (actor = R ∧ ∃ d promo,
      decrypt_promo_code F B red.promo_code_encrypted = some d ∧
      d.restaurant_id = R ∧
      σ.promocodes.find? (fun q => q.post_id == d.post_id) = some promo ∧
      pastExpiry promo.expiry_date now = false ∧
      redeem_promo F B now R red actor σ =
        (redeemSuccessStore now R red σ d promo, .ok 10)) := by
  unfold redeem_promo
  split
  · exact Or.inl ⟨rfl, .forbidden, rfl⟩
  · rename_i hA
    split
    · exact Or.inl ⟨rfl, .invalidCode, rfl⟩
    · rename_i d hdec
      split
      · exact Or.inl ⟨rfl, .restaurantMismatch, rfl⟩
      · rename_i hm
        split
        · exact Or.inl ⟨rfl, .notFound, rfl⟩
        · rename_i promo hfind
          split
          · exact Or.inl ⟨rfl, .expired, rfl⟩
          · rename_i he
            refine Or.inr ⟨not_not.mp hA, d, promo, hdec, not_not.mp hm, hfind, ?_, rfl⟩
            cases hpe : pastExpiry promo.expiry_date now
            · rfl
            · exact absurd hpe he

/-- A redeem run that returns an error leaves the store untouched. -/
theorem redeem_error_state (F : Fernet) (B : UrlSafeB64) (now : Int) (R : Str)
    (red : PromoRedeem) (actor : Str) (σ : Store) (e : ApiErr)
    (h : (redeem_promo F B now R red actor σ).2 = .error e) :
    (redeem_promo F B now R red actor σ).1 = σ := by
  rcases redeem_spec F B now R red actor σ with ⟨h1, _⟩ | ⟨_, d, promo, _, _, _, _, heq⟩
  · exact h1
  · rw [heq] at h
    simp at h

/-- A successful redeem run pins down every validation: the actor is the path
restaurant, the code decodes, the decoded restaurant matches the path, the
promo document is found by the decoded post id, and it is not expired; the
response is 10 points and the resulting store is the success store. -/
theorem redeem_ok_chars (F : Fernet) (B : UrlSafeB64) (now : Int) (R : Str)
    (red : PromoRedeem) (actor : Str) (σ : Store)
    (hok : exceptOk (redeem_promo F B now R red actor σ).2 = true) :
    actor = R ∧ ∃ d promo,
      decrypt_promo_code F B red.promo_code_encrypted = some d ∧
      d.restaurant_id = R ∧
      σ.promocodes.find? (fun q => q.post_id == d.post_id) = some promo ∧
      pastExpiry promo.expiry_date now = false ∧
      redeem_promo F B now R red actor σ =
        (redeemSuccessStore now R red σ d promo, .ok 10) := by
  rcases redeem_spec F B now R red actor σ with ⟨_, e, h2⟩ | h
  · rw [h2] at hok
    simp [exceptOk] at hok
  · exact h

/-- The loyalty collection written by the success path: the pair's document
gets 10 points and one transaction appended when it exists, and is created
with 10 points and one transaction otherwise. -/
theorem redeemSuccessStore_loyalty (now : Int) (R : Str) (red : PromoRedeem)
    (σ : Store) (d : DecodedPromo) (promo : PromoCode) :
    (redeemSuccessStore now R red σ d promo).loyalty_points =
      match σ.loyalty_points.find? (pairP R d.promoter_id) with
      | some _ => updateFirst (pairP R d.promoter_id)
          (fun l => { l with points := l.points + 10,
                             transactions := l.transactions ++
                               [{ amount := 10, type := .earned,
                                  source_promo_code_id := promo.id, date := now }],
                             last_updated := now }) σ.loyalty_points
      | none => σ.loyalty_points ++
          [{ restaurant_id := R, foodie_id := d.promoter_id, points := 10,
             transactions := [{ amount := 10, type := .earned,
                                source_promo_code_id := promo.id, date := now }],
             last_updated := now }] := by
  simp only [redeemSuccessStore]
  split <;> rfl

/-- One successful redeem call crediting the (R, Fo) pair advances the ledger
invariant by one credit, always landing in the single-document shape. -/
theorem ledger_step (F : Fernet) (B : UrlSafeB64) (c : RedeemCall) (σ : Store)
    (R Fo : Str) (k : Nat)
    (hr : c.restaurant_id = R)
    (hdFo : ∀ d, decrypt_promo_code F B c.redemption.promo_code_encrypted = some d →
      d.promoter_id = Fo)
    (hok : exceptOk (redeem_promo F B c.now c.restaurant_id c.redemption c.actor σ).2 = true)
    (hinv : ledgerInv R Fo k σ) :
    ∃ rec, (applyRedeem F B c σ).loyalty_points.filter (pairP R Fo) = [rec] ∧
      rec.points = 10 * ((k + 1 : Nat) : Int) ∧ rec.transactions.length = k + 1 := by
  subst hr
  obtain ⟨hA, d, promo, hdec, hres, hfind, hexp, heq⟩ :=
    redeem_ok_chars F B c.now c.restaurant_id c.redemption c.actor σ hok
  have hFo : d.promoter_id = Fo := hdFo d hdec
  subst hFo
  unfold applyRedeem
  rw [heq]
  simp only [redeemSuccessStore_loyalty]
  split
  · rename_i x hl
    rcases hinv with ⟨hk0, hfilter⟩ | ⟨rec, hfilter, hpts, hlen⟩
    · exfalso
      have hx : x ∈ σ.loyalty_points.filter (pairP c.restaurant_id d.promoter_id) :=
        List.mem_filter.mpr ⟨List.mem_of_find?_eq_some hl, List.find?_some hl⟩
      rw [hfilter] at hx
      exact List.not_mem_nil x hx
    · have hprec : pairP c.restaurant_id d.promoter_id rec = true := by
        have hmem : rec ∈ σ.loyalty_points.filter (pairP c.restaurant_id d.promoter_id) := by
          rw [hfilter]; exact List.mem_singleton_self rec
        exact (List.mem_filter.mp hmem).2
      refine ⟨_, filter_updateFirst_singleton _ _ _ rec hfilter hprec, ?_, ?_⟩
      · show rec.points + 10 = 10 * ((k + 1 : Nat) : Int)
        rw [hpts]
        push_cast
        ring
      · show (rec.transactions ++ [_]).length = k + 1
        simp [hlen]
  · rename_i hl
    rcases hinv with ⟨hk0, hfilter⟩ | ⟨rec, hfilter, hpts, hlen⟩
    · subst hk0
      rw [List.filter_append, hfilter]
      refine ⟨{ restaurant_id := c.restaurant_id, foodie_id := d.promoter_id,
                points := 10,
                transactions := [{ amount := 10, type := .earned,
                                   source_promo_code_id := promo.id, date := c.now }],
                last_updated := c.now }, ?_, by norm_num, by simp⟩
      simp [pairP]
    · exfalso
      have hmem : rec ∈ σ.loyalty_points.filter (pairP c.restaurant_id d.promoter_id) := by
        rw [hfilter]; exact List.mem_singleton_self rec
      have hrec := List.mem_filter.mp hmem
      exact (List.find?_eq_none.mp hl rec hrec.1) hrec.2

/-- Running a list of successful redeem calls crediting (R, Fo) adds one
credit per call to the ledger invariant. -/
theorem runRedeems_ledger (F : Fernet) (B : UrlSafeB64) (R Fo : Str)
    (calls : List RedeemCall) : ∀ (σ : Store) (k : Nat),
    creditsOk F B R Fo calls σ = true →
    ledgerInv R Fo k σ →
    ledgerInv R Fo (k + calls.length) (runRedeems F B calls σ) := by
  induction calls with
  | nil =>
    intro σ k _ hinv
    simpa [runRedeems] using hinv
  | cons c cs ih =>
    intro σ k hcred hinv
    unfold creditsOk at hcred
    rw [Bool.and_eq_true, Bool.and_eq_true, Bool.and_eq_true] at hcred
    obtain ⟨⟨⟨hr, hdFo0⟩, hok⟩, hrest⟩ := hcred
    have hr : c.restaurant_id = R := by simpa using hr
    have hdFo : ∀ d, decrypt_promo_code F B c.redemption.promo_code_encrypted = some d →
        d.promoter_id = Fo := by
      intro d hd
      rw [hd] at hdFo0
      simpa using hdFo0
    have hstep := ledger_step F B c σ R Fo k hr hdFo hok hinv
    have hnext : ledgerInv R Fo (k + 1) (applyRedeem F B c σ) := Or.inr hstep
    have := ih (applyRedeem F B c σ) (k + 1) hrest hnext
    rw [show k + 1 + cs.length = k + (c :: cs).length by simp; omega] at this
    exact this

/-- C1: for every tuple of fields none of which contains the delimiter
character, decoding the string produced by encoding returns exactly that
tuple, an empty dish_id being preserved as the empty string. -/
theorem C1_roundtrip (F : Fernet) (B : UrlSafeB64) (t pr r po d : Str)
    (ht : '|' ∉ t) (hpr : '|' ∉ pr) (hr : '|' ∉ r) (hpo : '|' ∉ po) (hd : '|' ∉ d) :
    decrypt_promo_code F B (encrypt_promo_code F B t pr r po d) =
      some { promo_text := t, promoter_id := pr, restaurant_id := r,
             post_id := po, dish_id := d } :=
  decrypt_encrypt F B t pr r po d ht hpr hr hpo hd

/-- Witness for C1 at a concrete tuple whose dish_id is the empty string. -/
theorem C1_roundtrip_witness :
    ('|' ∉ (['S'] : Str)) ∧ ('|' ∉ (['f'] : Str)) ∧ ('|' ∉ (['r'] : Str)) ∧
    ('|' ∉ (['p'] : Str)) ∧ ('|' ∉ ([] : Str)) ∧
    decrypt_promo_code fernetDemo b64Demo
        (encrypt_promo_code fernetDemo b64Demo ['S'] ['f'] ['r'] ['p'] []) =
      some { promo_text := ['S'], promoter_id := ['f'], restaurant_id := ['r'],
             post_id := ['p'], dish_id := [] } :=
  ⟨by decide, by decide, by decide, by decide, by decide,
   C1_roundtrip fernetDemo b64Demo ['S'] ['f'] ['r'] ['p'] []
     (by decide) (by decide) (by decide) (by decide) (by decide)⟩

/-- C9: decoding fails exactly when the textual encoding is malformed, when
decryption fails integrity verification, or when the decrypted record splits
into fewer than 4 fields; flipping any byte of an encoded code makes
decoding fail; and any input whose inner ciphertext is not a genuine
encryption makes decoding fail rather than return fields. -/
theorem C9_decode_failure (F : Fernet) (B : UrlSafeB64) :
    (∀ c, decrypt_promo_code F B c = none ↔
      B.dec c = none ∨
      (∃ w, B.dec c = some w ∧ F.dec w = none) ∨
      (∃ w p, B.dec c = some w ∧ F.dec w = some p ∧ (splitOnPipe p).length < 4)) ∧
    (∀ t pr r po d code2, OneFlip (encrypt_promo_code F B t pr r po d) code2 →
      decrypt_promo_code F B code2 = none) ∧
    (∀ c w, B.dec c = some w → (∀ m, w ≠ F.enc m) →
      decrypt_promo_code F B c = none) := by
  have hiff : ∀ c, decrypt_promo_code F B c = none ↔
      B.dec c = none ∨
      (∃ w, B.dec c = some w ∧ F.dec w = none) ∨
      (∃ w p, B.dec c = some w ∧ F.dec w = some p ∧ (splitOnPipe p).length < 4) := by
    intro c
    cases hb : B.dec c with
    | none => simp [decrypt_promo_code, hb]
    | some w =>
      cases hf : F.dec w with
      | none => simp [decrypt_promo_code, hb, hf]
      | some p =>
        rcases hs : splitOnPipe p with _ | ⟨p0, _ | ⟨p1, _ | ⟨p2, _ | ⟨p3, rest⟩⟩⟩⟩ <;>
          simp [decrypt_promo_code, hb, hf, hs]
  refine ⟨hiff, ?_, ?_⟩
  · intro t pr r po d code2 hflip
    rcases B.flip_dec (F.enc (promoPlaintext t pr r po d)) code2 hflip with
      hnone | ⟨w2, hw2, hfl⟩
    · exact (hiff code2).mpr (Or.inl hnone)
    · exact (hiff code2).mpr (Or.inr (Or.inl ⟨w2, hw2, F.flip_detect _ _ hfl⟩))
  · intro c w hw hm
    exact (hiff c).mpr (Or.inr (Or.inl ⟨w, hw, F.tamper w hm⟩))

/-- Witness for C9: flipping the first payload byte of the concrete encoded
code for (S, f, r, p, "") makes decoding fail, and a concrete input whose
inner ciphertext is not a genuine encryption fails decoding too. -/
theorem C9_decode_failure_witness :
    OneFlip (encrypt_promo_code fernetDemo b64Demo ['S'] ['f'] ['r'] ['p'] [])
      ('#' :: 'X' :: ['|', 'f', '|', 'r', '|', 'p', '|',
        'S', '|', 'f', '|', 'r', '|', 'p', '|']) ∧
    decrypt_promo_code fernetDemo b64Demo
      ('#' :: 'X' :: ['|', 'f', '|', 'r', '|', 'p', '|',
        'S', '|', 'f', '|', 'r', '|', 'p', '|']) = none ∧
    b64Demo.dec ['x'] = some ['x'] ∧
    decrypt_promo_code fernetDemo b64Demo ['x'] = none := by
  have hflip : OneFlip (encrypt_promo_code fernetDemo b64Demo ['S'] ['f'] ['r'] ['p'] [])
      ('#' :: 'X' :: ['|', 'f', '|', 'r', '|', 'p', '|',
        'S', '|', 'f', '|', 'r', '|', 'p', '|']) := by
    show OneFlip ('#' :: 'S' :: ['|', 'f', '|', 'r', '|', 'p', '|',
        'S', '|', 'f', '|', 'r', '|', 'p', '|'])
      ('#' :: 'X' :: ['|', 'f', '|', 'r', '|', 'p', '|',
        'S', '|', 'f', '|', 'r', '|', 'p', '|'])
    exact OneFlip.tail _ _ _ (OneFlip.head _ _ _ (by decide))
  refine ⟨hflip,
    (C9_decode_failure fernetDemo b64Demo).2.1 ['S'] ['f'] ['r'] ['p'] [] _ hflip,
    rfl,
    (C9_decode_failure fernetDemo b64Demo).2.2 ['x'] ['x'] rfl ?_⟩
  intro m hm
  injection hm with h1 h2
  exact absurd h1 (by decide)

/-- Full case analysis of the approve endpoint: the forbidden failure, the
not-found failure, or the success writes. -/
theorem approve_spec (F : Fernet) (B : UrlSafeB64) (now : Int)
    (newPromoId R post_id : Str) (promo : PromoApprove) (actor : Str) (σ : Store) :
    (actor ≠ R ∧
      approve_promo F B now newPromoId R post_id promo actor σ =
        (σ, .error .forbidden)) ∨
    (actor = R ∧ σ.posts.find? (fun q => q.id == post_id) = none ∧
      approve_promo F B now newPromoId R post_id promo actor σ =
        (σ, .error .notFound)) ∨
    (actor = R ∧ ∃ post, σ.posts.find? (fun q => q.id == post_id) = some post ∧
      approve_promo F B now newPromoId R post_id promo actor σ =
        ({ σ with
            promocodes := σ.promocodes ++
              [{ id := newPromoId,
                 code_encrypted := encrypt_promo_code F B promo.promo_code_plain_text
                   post.user_id R post_id [],
                 promoter_foodie_id := post.user_id, restaurant_id := R,
                 post_id := post_id, offer_description := promo.offer_description,
                 expiry_date := promo.expiry_date, redemptions := [],
                 created_at := now }],
            posts := updateFirst (fun q => q.id == post_id)
              (fun q => { q with promotion_status := .approved,
                                 promo_code_id := some newPromoId,
                                 updated_at := now }) σ.posts },
         .ok (encrypt_promo_code F B promo.promo_code_plain_text
           post.user_id R post_id []))) := by
  unfold approve_promo
  split
  · rename_i h
    exact Or.inl ⟨h, rfl⟩
  · rename_i h
    split
    · rename_i hfind
      exact Or.inr (Or.inl ⟨not_not.mp h, hfind, rfl⟩)
    · rename_i post hfind
      exact Or.inr (Or.inr ⟨not_not.mp h, post, hfind, rfl⟩)

/-- Counterexample to C3: restaurant "r" approves a post tagged to the
distinct restaurant "R" through its own path; the call succeeds and a
PromoCode is created instead of failing with Forbidden. -/
theorem C3_counterexample :
    demoPost.restaurant_tagged_id ≠ some ['r'] ∧
    (approve_promo fernetDemo b64Demo 1 ['i'] ['r'] ['p'] demoApprove ['r'] demoStore).2 =
      .ok demoCode ∧
    (approve_promo fernetDemo b64Demo 1 ['i'] ['r'] ['p'] demoApprove ['r']
        demoStore).1.promocodes.length = 1 :=
  ⟨by decide, by decide, by decide⟩

/-- C3 amended: approve authorizes the actor against the restaurant_id path
parameter only; when they differ the call fails with Forbidden and creates no
PromoCode (the post's tagged restaurant is never consulted). -/
theorem C3_amended_forbidden (F : Fernet) (B : UrlSafeB64) (now : Int)
    (newPromoId R post_id : Str) (promo : PromoApprove) (actor : Str) (σ : Store)
    (h : actor ≠ R) :
    approve_promo F B now newPromoId R post_id promo actor σ =
      (σ, .error .forbidden) := by
  unfold approve_promo
  rw [if_pos h]

/-- Witness for the amended C3 at concrete distinct ids. -/
theorem C3_amended_forbidden_witness :
    (['x'] : Str) ≠ ['r'] ∧
    approve_promo fernetDemo b64Demo 1 ['i'] ['r'] ['p'] demoApprove ['x'] demoStore =
      (demoStore, .error .forbidden) :=
  ⟨by decide, C3_amended_forbidden fernetDemo b64Demo 1 ['i'] ['r'] ['p'] demoApprove
    ['x'] demoStore (by decide)⟩

/-- Counterexample to C4: after the demo post is Rejected, a subsequent
authorized Approve succeeds and moves the post to Approved — the terminal
status is not immutable and re-approval is possible. -/
theorem C4_counterexample :
    (demoRejected.posts.find? (fun q => q.id == ['p'])).map Post.promotion_status =
      some .rejected ∧
    exceptOk (approve_promo fernetDemo b64Demo 3 ['i'] ['r'] ['p'] demoApprove ['r']
      demoRejected).2 = true ∧
    ((approve_promo fernetDemo b64Demo 3 ['i'] ['r'] ['p'] demoApprove ['r']
        demoRejected).1.posts.find? (fun q => q.id == ['p'])).map
      Post.promotion_status = some .approved :=
  ⟨by decide, by decide, by decide⟩

/-- C4 amended: Approved and Rejected are not terminal — an authorized
Approve on any existing post sets its status to Approved and attaches the new
promo code id regardless of the current status, and an authorized Reject sets
the status to Rejected regardless of the current status. -/
theorem C4_amended_not_terminal (F : Fernet) (B : UrlSafeB64) (now : Int)
    (newPromoId R post_id : Str) (promo : PromoApprove) (actor : Str) (σ : Store)
    (post : Post) (hauth : actor = R)
    (hfind : σ.posts.find? (fun q => q.id == post_id) = some post) :
    (approve_promo F B now newPromoId R post_id promo actor σ).1.posts.find?
        (fun q => q.id == post_id) =
      some { post with promotion_status := .approved,
                       promo_code_id := some newPromoId, updated_at := now } ∧
    (reject_promo now R post_id actor σ).1.posts.find? (fun q => q.id == post_id) =
      some { post with promotion_status := .rejected, updated_at := now } := by
  subst hauth
  have hp := List.find?_some hfind
  constructor
  · rcases approve_spec F B now newPromoId actor post_id promo actor σ with
      ⟨hne, _⟩ | ⟨_, hnone, _⟩ | ⟨_, post2, hfind2, heqa⟩
    · exact absurd rfl hne
    · rw [hfind] at hnone
      cases hnone
    · rw [hfind] at hfind2
      injection hfind2 with h2
      subst h2
      rw [heqa]
      exact find?_updateFirst _ _ _ post hfind hp
  · unfold reject_promo
    rw [if_neg (fun hcon => hcon rfl)]
    exact find?_updateFirst _ _ _ post hfind hp

/-- Witness for the amended C4: re-approval of the concretely rejected demo
post. -/
theorem C4_amended_not_terminal_witness :
    (['r'] : Str) = ['r'] ∧
    demoRejected.posts.find? (fun q => q.id == ['p']) = some demoPostRejected ∧
    ((approve_promo fernetDemo b64Demo 3 ['i'] ['r'] ['p'] demoApprove ['r']
        demoRejected).1.posts.find? (fun q => q.id == ['p']) =
      some { demoPostRejected with promotion_status := .approved,
                                   promo_code_id := some ['i'],
                                   updated_at := 3 } ∧
     (reject_promo 3 ['r'] ['p'] ['r'] demoRejected).1.posts.find?
        (fun q => q.id == ['p']) =
      some { demoPostRejected with promotion_status := .rejected,
                                   updated_at := 3 }) :=
  ⟨rfl, by decide,
   C4_amended_not_terminal fernetDemo b64Demo 3 ['i'] ['r'] ['p'] demoApprove ['r']
     demoRejected demoPostRejected rfl (by decide)⟩

/-- C10: an authorized Reject reports success whether or not the post exists,
and when no post matches the post_id the store is returned unchanged — the
endpoint has no existence check and never fails with NotFound. -/
theorem C10_reject_unconditional (now : Int) (R post_id actor : Str) (σ : Store)
    (hauth : actor = R) :
    (reject_promo now R post_id actor σ).2 = .ok () ∧
    (σ.posts.find? (fun q => q.id == post_id) = none →
      reject_promo now R post_id actor σ = (σ, .ok ())) := by
  subst hauth
  unfold reject_promo
  rw [if_neg (fun hcon => hcon rfl)]
  refine ⟨rfl, fun hnone => ?_⟩
  simp only [updateFirst_no_match _ _ _ hnone]

/-- Witness for C10: an authorized Reject of a post id that does not exist in
the concrete store succeeds and changes nothing. -/
theorem C10_reject_unconditional_witness :
    (['r'] : Str) = ['r'] ∧
    demoStore.posts.find? (fun q => q.id == ['q']) = none ∧
    ((reject_promo 5 ['r'] ['q'] ['r'] demoStore).2 = .ok () ∧
      reject_promo 5 ['r'] ['q'] ['r'] demoStore = (demoStore, .ok ())) :=
  ⟨rfl, by decide,
   (C10_reject_unconditional 5 ['r'] ['q'] ['r'] demoStore rfl).1,
   (C10_reject_unconditional 5 ['r'] ['q'] ['r'] demoStore rfl).2 (by decide)⟩

/-- Counterexample to C2: after the post is approved twice, once through each
restaurant path, redeeming the second code succeeds although the PromoCode
record retrieved by the decoded post_id belongs to the other restaurant — the
decoded tuple is not compared against the retrieved record. -/
theorem C2_counterexample :
    exceptOk (redeem_promo fernetDemo b64Demo 5 ['R']
      { promo_code_encrypted := demoCode2, redeemer_user_id := ['u'] } ['R']
      demoDoubleApproved).2 = true ∧
    decrypt_promo_code fernetDemo b64Demo demoCode2 =
      some { promo_text := ['T'], promoter_id := ['f'], restaurant_id := ['R'],
             post_id := ['p'], dish_id := [] } ∧
    (demoDoubleApproved.promocodes.find? (fun q => q.post_id == ['p'])).map
      PromoCode.restaurant_id = some ['r'] ∧
    (['r'] : Str) ≠ ['R'] :=
  ⟨by decide, by decide, by decide, by decide⟩

/-- C2 amended: a successful Redeem guarantees exactly that the actor is the
path restaurant, that the decoded restaurant_id equals that restaurant, and
that the PromoCode record retrieved by the decoded post_id carries that
post_id; the decoded promoter_id and restaurant_id are not compared against
the retrieved record. -/
theorem C2_amended_redeem_guarantees (F : Fernet) (B : UrlSafeB64) (now : Int)
    (R : Str) (red : PromoRedeem) (actor : Str) (σ : Store)
    (hok : exceptOk (redeem_promo F B now R red actor σ).2 = true) :
    actor = R ∧ ∃ d promo,
      decrypt_promo_code F B red.promo_code_encrypted = some d ∧
      d.restaurant_id = R ∧
      σ.promocodes.find? (fun q => q.post_id == d.post_id) = some promo ∧
      promo.post_id = d.post_id := by
  obtain ⟨hA, d, promo, hdec, hres, hfind, _, _⟩ :=
    redeem_ok_chars F B now R red actor σ hok
  refine ⟨hA, d, promo, hdec, hres, hfind, ?_⟩
  have hp := List.find?_some hfind
  simpa using hp

/-- Witness for the amended C2 on a concrete successful redemption. -/
theorem C2_amended_redeem_guarantees_witness :
    exceptOk (redeem_promo fernetDemo b64Demo 2 ['r'] demoRedeem ['r']
      demoApproved).2 = true ∧
    ((['r'] : Str) = ['r'] ∧ ∃ d promo,
      decrypt_promo_code fernetDemo b64Demo demoRedeem.promo_code_encrypted =
        some d ∧
      d.restaurant_id = ['r'] ∧
      demoApproved.promocodes.find? (fun q => q.post_id == d.post_id) =
        some promo ∧
      promo.post_id = d.post_id) :=
  ⟨by decide,
   C2_amended_redeem_guarantees fernetDemo b64Demo 2 ['r'] demoRedeem ['r']
     demoApproved (by decide)⟩

/-- C5: a code minted for restaurant R1 with pipe-free fields, presented by
the authenticated distinct restaurant R2, fails with the restaurant-mismatch
error and leaves the store unchanged. -/
theorem C5_restaurant_mismatch (F : Fernet) (B : UrlSafeB64) (now : Int)
    (R1 R2 t pr po d : Str) (red : PromoRedeem) (actor : Str) (σ : Store)
    (hactor : actor = R2)
    (hcode : red.promo_code_encrypted = encrypt_promo_code F B t pr R1 po d)
    (ht : '|' ∉ t) (hpr : '|' ∉ pr) (hR1 : '|' ∉ R1) (hpo : '|' ∉ po)
    (hd : '|' ∉ d) (hne : R1 ≠ R2) :
    redeem_promo F B now R2 red actor σ = (σ, .error .restaurantMismatch) := by
  subst hactor
  have hdec : decrypt_promo_code F B red.promo_code_encrypted =
      some { promo_text := t, promoter_id := pr, restaurant_id := R1,
             post_id := po, dish_id := d } := by
    rw [hcode]
    exact decrypt_encrypt F B t pr R1 po d ht hpr hR1 hpo hd
  unfold redeem_promo
  rw [if_neg (fun hcon => hcon rfl)]
  simp only [hdec]
  rw [if_pos hne]

/-- Witness for C5: the demo code minted for restaurant "r" is refused by
restaurant "R". -/
theorem C5_restaurant_mismatch_witness :
    (['R'] : Str) = ['R'] ∧
    demoRedeem.promo_code_encrypted =
      encrypt_promo_code fernetDemo b64Demo ['S'] ['f'] ['r'] ['p'] [] ∧
    (['r'] : Str) ≠ ['R'] ∧
    redeem_promo fernetDemo b64Demo 2 ['R'] demoRedeem ['R'] demoApproved =
      (demoApproved, .error .restaurantMismatch) :=
  ⟨rfl, rfl, by decide,
   C5_restaurant_mismatch fernetDemo b64Demo 2 ['r'] ['R'] ['S'] ['f'] ['p'] []
     demoRedeem ['R'] demoApproved rfl rfl (by decide) (by decide) (by decide)
     (by decide) (by decide) (by decide)⟩

/-- C6: with authorization, decoding, restaurant match and promo lookup all
succeeding, a redeem call fails with Expired exactly on a past expiry date:
a past expiry yields the expired error with no state change, while no expiry
date or a future expiry date yields the 10-point success. -/
theorem C6_expiry (F : Fernet) (B : UrlSafeB64) (now : Int) (R : Str)
    (red : PromoRedeem) (actor : Str) (σ : Store) (d : DecodedPromo)
    (promo : PromoCode)
    (hactor : actor = R)
    (hdec : decrypt_promo_code F B red.promo_code_encrypted = some d)
    (hres : d.restaurant_id = R)
    (hfind : σ.promocodes.find? (fun q => q.post_id == d.post_id) = some promo) :
    (∀ e, promo.expiry_date = some e → e < now →
        redeem_promo F B now R red actor σ = (σ, .error .expired)) ∧
    (promo.expiry_date = none →
        redeem_promo F B now R red actor σ =
          (redeemSuccessStore now R red σ d promo, .ok 10)) ∧
    (∀ e, promo.expiry_date = some e → now < e →
        redeem_promo F B now R red actor σ =
          (redeemSuccessStore now R red σ d promo, .ok 10)) := by
  subst hactor
  unfold redeem_promo
  rw [if_neg (fun hcon => hcon rfl)]
  simp only [hdec]
  rw [if_neg (fun hcon => hcon hres)]
  simp only [hfind]
  refine ⟨?_, ?_, ?_⟩
  · intro e he hlt
    simp [pastExpiry, he, hlt]
  · intro hnone
    simp [pastExpiry, hnone]
  · intro e he hlt
    have hn : ¬(now > e) := not_lt.mpr (le_of_lt hlt)
    simp [pastExpiry, he, hn]

/-- Witness for C6 on the concrete approved store, whose promo document has
no expiry date. -/
theorem C6_expiry_witness :
    (['r'] : Str) = ['r'] ∧
    decrypt_promo_code fernetDemo b64Demo demoRedeem.promo_code_encrypted =
      some demoDecoded ∧
    demoDecoded.restaurant_id = ['r'] ∧
    demoApproved.promocodes.find? (fun q => q.post_id == demoDecoded.post_id) =
      some demoPromoRec ∧
    ((∀ e, demoPromoRec.expiry_date = some e → e < 2 →
        redeem_promo fernetDemo b64Demo 2 ['r'] demoRedeem ['r'] demoApproved =
          (demoApproved, .error .expired)) ∧
     (demoPromoRec.expiry_date = none →
        redeem_promo fernetDemo b64Demo 2 ['r'] demoRedeem ['r'] demoApproved =
          (redeemSuccessStore 2 ['r'] demoRedeem demoApproved demoDecoded
            demoPromoRec, .ok 10)) ∧
     (∀ e, demoPromoRec.expiry_date = some e → 2 < e →
        redeem_promo fernetDemo b64Demo 2 ['r'] demoRedeem ['r'] demoApproved =
          (redeemSuccessStore 2 ['r'] demoRedeem demoApproved demoDecoded
            demoPromoRec, .ok 10))) :=
  ⟨rfl, by decide, by decide, by decide,
   C6_expiry fernetDemo b64Demo 2 ['r'] demoRedeem ['r'] demoApproved demoDecoded
     demoPromoRec rfl (by decide) (by decide) (by decide)⟩

/-- C7: a redeem call that fails any of the five validations returns the
store unchanged — no redemption is appended and no loyalty document is
created or modified. -/
theorem C7_failed_redeem_no_write (F : Fernet) (B : UrlSafeB64) (now : Int)
    (R : Str) (red : PromoRedeem) (actor : Str) (σ : Store) (e : ApiErr)
    (h : (redeem_promo F B now R red actor σ).2 = .error e) :
    (redeem_promo F B now R red actor σ).1 = σ :=
  redeem_error_state F B now R red actor σ e h

/-- Witness for C7: a concrete forbidden redemption leaves the store as it
was. -/
theorem C7_failed_redeem_no_write_witness :
    (redeem_promo fernetDemo b64Demo 2 ['r'] demoRedeem ['x'] demoApproved).2 =
      .error .forbidden ∧
    (redeem_promo fernetDemo b64Demo 2 ['r'] demoRedeem ['x'] demoApproved).1 =
      demoApproved :=
  ⟨by decide,
   C7_failed_redeem_no_write fernetDemo b64Demo 2 ['r'] demoRedeem ['x']
     demoApproved .forbidden (by decide)⟩

/-- C8: starting from a store with no loyalty document for the (restaurant,
foodie) pair, any nonempty sequence of successful sequential redemptions
crediting that pair leaves exactly one loyalty document for the pair,
holding 10 × N points and N transactions, where N is the number of calls. -/
theorem C8_ledger_accumulation (F : Fernet) (B : UrlSafeB64) (R Fo : Str)
    (calls : List RedeemCall) (σ : Store)
    (hne : calls ≠ [])
    (h0 : σ.loyalty_points.filter (pairP R Fo) = [])
    (hs : creditsOk F B R Fo calls σ = true) :
    ∃ rec, (runRedeems F B calls σ).loyalty_points.filter (pairP R Fo) = [rec] ∧
      rec.points = 10 * (calls.length : Int) ∧
      rec.transactions.length = calls.length := by
  have hinv0 : ledgerInv R Fo 0 σ := Or.inl ⟨rfl, h0⟩
  have h := runRedeems_ledger F B R Fo calls σ 0 hs hinv0
  rw [Nat.zero_add] at h
  rcases h with ⟨hk0, _⟩ | hrec
  · exact absurd (List.length_eq_zero.mp hk0) hne
  · exact hrec

/-- Witness for C8: two concrete successful redemptions of the demo code
leave one loyalty document with 20 points and 2 transactions. -/
theorem C8_ledger_accumulation_witness :
    demoCalls ≠ [] ∧
    demoApproved.loyalty_points.filter (pairP ['r'] ['f']) = [] ∧
    creditsOk fernetDemo b64Demo ['r'] ['f'] demoCalls demoApproved = true ∧
    (∃ rec, (runRedeems fernetDemo b64Demo demoCalls
        demoApproved).loyalty_points.filter (pairP ['r'] ['f']) = [rec] ∧
      rec.points = 10 * (demoCalls.length : Int) ∧
      rec.transactions.length = demoCalls.length) :=
  ⟨by decide, by decide, by decide,
   C8_ledger_accumulation fernetDemo b64Demo ['r'] ['f'] demoCalls demoApproved
     (by decide) (by decide) (by decide)⟩
